import Mathlib

/-!
Verification of `fedora-36-crash-analysis/t.cpp`.

The program default-constructs an empty `std::vector<char> buf`, prints
`"size: " << buf.size()` to standard output, then evaluates `&buf[0]` and
prints that address with `printf("%p\n", ...)`.

We give a shallow embedding of the program as a deterministic small-step
state machine.  The embedding covers both build configurations mentioned in
the file's comments: with `_GLIBCXX_ASSERTIONS` (hardened, `operator[]`
checks `__n < this->size()` and aborts on violation) and without it
(unhardened, `operator[]` is the unchecked `*(_M_start + __n)` of
libstdc++, so `&buf[0]` is `_M_start + 0`, and `_M_start` of a
default-constructed vector is the null pointer).

The program takes no inputs (`int main()`), so the machine is additionally
parameterised by an environment record (argument vector, environment
variables, file system, prior-run output) that the embedded `main` ignores,
which lets the no-input hyperproperties be stated as real two-run theorems.
-/

namespace CrashDemo

/-- Build configuration: whether `_GLIBCXX_ASSERTIONS` is defined. -/
inductive Config where
  | hardened
  | unhardened
deriving DecidableEq

/-- Model of `std::vector<char>` (libstdc++): a data pointer `start`
(`_M_start`, an address, `0` = null) and the owned contents. -/
structure Vec where
  start : Nat
  data : List Nat
deriving DecidableEq

/-- `v.size()`: number of elements currently held. -/
def Vec.size (v : Vec) : Nat := v.data.length

/-- The validity precondition of element access at index `i`
(libstdc++ spells it `__n < this->size()`). -/
def Vec.validIndex (v : Vec) (i : Nat) : Prop := i < v.size

instance (v : Vec) (i : Nat) : Decidable (v.validIndex i) :=
  inferInstanceAs (Decidable (i < v.size))

/-- Hardened `operator[]`: with `_GLIBCXX_ASSERTIONS` the access is
checked; the error branch (`none`) models the failed assertion. -/
def Vec.opIndex? (v : Vec) (i : Nat) : Option Nat := v.data.get? i

/-- Unhardened `&v[i]`: `operator[]` returns `*(_M_start + __n)` without
any check, so taking the address yields `_M_start + __n`.  Only an address
computation: no element value is read or written. -/
def Vec.opIndexAddr (v : Vec) (i : Nat) : Nat := v.start + i

/-- `std::vector<char> buf;` — the default constructor: no allocation,
`_M_start` is the null pointer, no elements. -/
def buf : Vec := { start := 0, data := [] }

/-- The first output line: `"size: " << buf.size() << std::endl`. -/
def sizeLine : String := "size: " ++ toString buf.size

/-- glibc `printf("%p\n", p)`: `(nil)` for the null pointer, otherwise
`0x` followed by lowercase hex digits. -/
def formatPtr (a : Nat) : String :=
  if a = 0 then "(nil)" else "0x" ++ String.mk (Nat.toDigits 16 a)

/-- The diagnostic the hardened build emits on the failed assertion,
identifying the violated precondition of `operator[]`. -/
def assertDiag : String :=
  "bits/stl_vector.h: std::vector<_Tp, _Alloc>::reference " ++
  "std::vector<_Tp, _Alloc>::operator[](size_type): " ++
  "Assertion __n < this->size() failed."

/-- Process exit: normal with a code, or killed by a signal. -/
inductive ExitStatus where
  | normal (code : Nat)
  | signal (sig : Nat)
deriving DecidableEq

/-- Abnormal termination: a non-zero exit code or a signal. -/
def ExitStatus.isAbnormal : ExitStatus → Bool
  | .normal code => code != 0
  | .signal _ => true

/-- Program counter of the two-statement `main`. -/
inductive PC where
  | start
  | printedSize
  | aborted
  | printedAddr
  | exited
deriving DecidableEq

/-- Machine state: program counter, the vector, captured standard output
(as a list of lines), the standard-error diagnostic if any, and the exit
status once the process has terminated. -/
structure St where
  pc : PC
  vec : Vec
  stdout : List String
  diag : Option String
  exit : Option ExitStatus
deriving DecidableEq

/-- The environment a process could in principle consume.  `main` ignores
all of it: `int main()` takes no arguments and the body reads no
environment variable, file, or prior state. -/
structure Env where
  argv : List String
  envVars : List (String × String)
  fileSystem : List (String × String)
  priorRunOutput : List String

/-- Initial state: `buf` has just been default-constructed; nothing
printed yet.  The environment is ignored. -/
def mainInit (_env : Env) : St :=
  { pc := .start, vec := buf, stdout := [], diag := none, exit := none }

/-- One execution step of `main` under configuration `cfg`.  Terminal
states (`aborted`, `exited`) are fixed points. -/
def step (cfg : Config) (s : St) : St :=
  match s.pc with
  | .start =>
      { s with pc := .printedSize,
               stdout := s.stdout ++ ["size: " ++ toString s.vec.size] }
  | .printedSize =>
      match cfg with
      | .hardened =>
          match s.vec.opIndex? 0 with
          | some _ =>
              { s with pc := .printedAddr,
                       stdout := s.stdout ++ [formatPtr (s.vec.opIndexAddr 0)] }
          | none =>
              { s with pc := .aborted, diag := some assertDiag,
                       exit := some (.signal 6) }
      | .unhardened =>
          { s with pc := .printedAddr,
                   stdout := s.stdout ++ [formatPtr (s.vec.opIndexAddr 0)] }
  | .printedAddr =>
      { s with pc := .exited, exit := some (.normal 0) }
  | .aborted => s
  | .exited => s

/-- The state after `n` steps of the run in configuration `cfg` with
environment `env`. -/
def run (cfg : Config) (env : Env) : Nat → St
  | 0 => mainInit env
  | n + 1 => step cfg (run cfg env n)

/-- A state in which the index-0 element access has already been
attempted (it is attempted in the transition out of `printedSize`). -/
def accessAttempted (s : St) : Prop :=
  s.pc = .aborted ∨ s.pc = .printedAddr ∨ s.pc = .exited

instance (s : St) : Decidable (accessAttempted s) := by
  unfold accessAttempted
  infer_instance

/-- Results of every operation `main` performs, in program order, as a
total (`Option`) embedding: default-construct `buf`, query `size`, print
the size line, access index 0, print the address line.  Only the element
access can fail. -/
def programOps : List (Option Unit) :=
  [ some (),
    (some buf.size).map fun _ => (),
    some (),
    (buf.opIndex? 0).map fun _ => (),
    some () ]

/-- A concrete environment used for witnesses. -/
def sampleEnv : Env :=
  { argv := ["./a.out"], envVars := [("LANG", "C")],
    fileSystem := [], priorRunOutput := ["(nil)"] }

/-- State after the size line has been printed (both configurations). -/
def afterSizeLine : St :=
  { pc := .printedSize, vec := buf, stdout := [sizeLine],
    diag := none, exit := none }

/-- State after the unhardened build has printed the address line. -/
def afterAddrLine : St :=
  { pc := .printedAddr, vec := buf, stdout := [sizeLine, formatPtr 0],
    diag := none, exit := none }

/-- Terminal state of the hardened run: aborted by the assertion. -/
def hardenedHalt : St :=
  { pc := .aborted, vec := buf, stdout := [sizeLine],
    diag := some assertDiag, exit := some (.signal 6) }

/-- Terminal state of the unhardened run: normal exit with code 0. -/
def unhardenedHalt : St :=
  { pc := .exited, vec := buf, stdout := [sizeLine, formatPtr 0],
    diag := none, exit := some (.normal 0) }

theorem run_one (cfg : Config) (env : Env) : run cfg env 1 = afterSizeLine := by
  cases cfg <;> rfl

theorem run_hardened_stable (env : Env) (n : Nat) :
    run Config.hardened env (n + 2) = hardenedHalt := by
  induction n with
  | zero => rfl
  | succ m ih =>
      show step Config.hardened (run Config.hardened env (m + 2)) = hardenedHalt
      rw [ih]
      rfl

theorem run_unhardened_two (env : Env) :
    run Config.unhardened env 2 = afterAddrLine := rfl

theorem run_unhardened_stable (env : Env) (n : Nat) :
    run Config.unhardened env (n + 3) = unhardenedHalt := by
  induction n with
  | zero => rfl
  | succ m ih =>
      show step Config.unhardened (run Config.unhardened env (m + 3)) = unhardenedHalt
      rw [ih]
      rfl

/-- Every hardened-run state is one of three: initial, size printed, or
aborted. -/
theorem run_hardened_closed (env : Env) (n : Nat) :
    run Config.hardened env n = mainInit env ∨
    run Config.hardened env n = afterSizeLine ∨
    run Config.hardened env n = hardenedHalt := by
  match n with
  | 0 => exact Or.inl rfl
  | 1 => exact Or.inr (Or.inl (run_one _ env))
  | m + 2 => exact Or.inr (Or.inr (run_hardened_stable env m))

/-- Every unhardened-run state is one of four: initial, size printed,
address printed, or exited. -/
theorem run_unhardened_closed (env : Env) (n : Nat) :
    run Config.unhardened env n = mainInit env ∨
    run Config.unhardened env n = afterSizeLine ∨
    run Config.unhardened env n = afterAddrLine ∨
    run Config.unhardened env n = unhardenedHalt := by
  match n with
  | 0 => exact Or.inl rfl
  | 1 => exact Or.inr (Or.inl (run_one _ env))
  | 2 => exact Or.inr (Or.inr (Or.inl (run_unhardened_two env)))
  | m + 3 => exact Or.inr (Or.inr (Or.inr (run_unhardened_stable env m)))

/-- No step of the program mutates the vector. -/
theorem step_vec (cfg : Config) (s : St) : (step cfg s).vec = s.vec := by
  rcases s with ⟨pc, vec, stdout, diag, exit⟩
  cases pc <;> cases cfg <;>
    cases h : vec.opIndex? 0 <;>
    simp [step, h]

theorem run_vec (cfg : Config) (env : Env) (n : Nat) :
    (run cfg env n).vec = buf := by
  induction n with
  | zero => rfl
  | succ m ih => rw [run, step_vec, ih]

/-- The embedded `main` ignores the environment entirely. -/
theorem run_env_irrel (cfg : Config) (env₁ env₂ : Env) (n : Nat) :
    run cfg env₁ n = run cfg env₂ n := by
  induction n with
  | zero => rfl
  | succ m ih => rw [run, run, ih]

/-- After at least one step the state is one of the four printed states. -/
theorem run_pos_closed (cfg : Config) (env : Env) (n : Nat) :
    run cfg env (n + 1) = afterSizeLine ∨ run cfg env (n + 1) = hardenedHalt ∨
    run cfg env (n + 1) = afterAddrLine ∨ run cfg env (n + 1) = unhardenedHalt := by
  cases cfg with
  | hardened =>
      match n with
      | 0 => exact Or.inl (run_one _ env)
      | m + 1 => exact Or.inr (Or.inl (run_hardened_stable env m))
  | unhardened =>
      match n with
      | 0 => exact Or.inl (run_one _ env)
      | 1 => exact Or.inr (Or.inr (Or.inl (run_unhardened_two env)))
      | m + 2 => exact Or.inr (Or.inr (Or.inr (run_unhardened_stable env m)))

/-- Checked indexing succeeds exactly on valid indices. -/
theorem opIndex_isSome_iff (v : Vec) (i : Nat) :
    (v.opIndex? i).isSome = true ↔ v.validIndex i := by
  unfold Vec.opIndex? Vec.validIndex Vec.size
  rw [Option.isSome_iff_ne_none, ne_eq, List.get?_eq_none]
  omega

/-- C1: In the hardened build, the index-0 access on the zero-length buffer
aborts the process: from step 2 on, the run is in the aborted state, the
captured standard output is exactly the single line `size: 0`, the
assertion diagnostic identifying the violated precondition has been
emitted, the exit status is signal-indicated (abnormal), and the address
line never appears in standard output at any step of the run. -/
theorem c1_hardened_abort_before_address (env : Env) (n : Nat) :
    (run Config.hardened env (n + 2)).pc = PC.aborted ∧
    (run Config.hardened env (n + 2)).stdout = ["size: 0"] ∧
    (run Config.hardened env (n + 2)).diag = some assertDiag ∧
    (run Config.hardened env (n + 2)).exit = some (ExitStatus.signal 6) ∧
    ExitStatus.isAbnormal (ExitStatus.signal 6) = true ∧
    ∀ m, formatPtr (buf.opIndexAddr 0) ∉ (run Config.hardened env m).stdout := by
  rw [run_hardened_stable env n]
  refine ⟨rfl, by decide, rfl, rfl, rfl, ?_⟩
  intro m
  rcases run_hardened_closed env m with h | h | h <;> rw [h]
  · simp [mainInit]
  · decide
  · decide

/-- C2: In both build configurations, the printed length of the
default-constructed buffer is 0: at every step after the first, the first
line of captured standard output is exactly `size: 0`. -/
theorem c2_printed_length_is_zero (cfg : Config) (env : Env) (n : Nat) :
    buf.size = 0 ∧ sizeLine = "size: 0" ∧
    (run cfg env (n + 1)).stdout.head? = some "size: 0" := by
  refine ⟨by decide, by decide, ?_⟩
  rcases run_pos_closed cfg env n with h | h | h | h <;> rw [h] <;> decide

/-- C3: indexing is valid only for `i < size`; the program's single access
is at index 0 of the length-0 buffer, so it violates the precondition and
the error branch of the total (`Option`) embedding of indexing is taken. -/
theorem c3_access_violates_precondition :
    (∀ (v : Vec) (i : Nat), (v.opIndex? i).isSome = true ↔ v.validIndex i) ∧
    ¬ buf.validIndex 0 ∧
    buf.opIndex? 0 = none := by
  exact ⟨opIndex_isSome_iff, by decide, rfl⟩

/-- C4: the unhardened run never aborts at any step, and it terminates
with exit status 0 after printing exactly two lines: the size line first,
then the formatted address value. -/
theorem c4_unhardened_terminates_normally (env : Env) (n : Nat) :
    (∀ m, (run Config.unhardened env m).pc ≠ PC.aborted) ∧
    (run Config.unhardened env (n + 3)).exit = some (ExitStatus.normal 0) ∧
    ExitStatus.isAbnormal (ExitStatus.normal 0) = false ∧
    (run Config.unhardened env (n + 3)).stdout.length = 2 ∧
    (run Config.unhardened env (n + 3)).stdout =
      [sizeLine, formatPtr (buf.opIndexAddr 0)] := by
  rw [run_unhardened_stable env n]
  refine ⟨?_, rfl, rfl, rfl, rfl⟩
  intro m
  rcases run_unhardened_closed env m with h | h | h | h <;> rw [h]
  · simp [mainInit]
  · decide
  · decide
  · decide

/-- C5: execution is strictly linear: step 0 is the start (nothing printed,
access not yet attempted), step 1 has printed the size line (access still
not attempted), and in both configurations any state in which the access
has been attempted already carries the size line in standard output. -/
theorem c5_size_line_precedes_access (cfg : Config) (env : Env) :
    (run cfg env 0).pc = PC.start ∧
    (run cfg env 0).stdout = [] ∧
    ¬ accessAttempted (run cfg env 0) ∧
    (run cfg env 1).pc = PC.printedSize ∧
    (run cfg env 1).stdout = [sizeLine] ∧
    ¬ accessAttempted (run cfg env 1) ∧
    ∀ n, accessAttempted (run cfg env n) → sizeLine ∈ (run cfg env n).stdout := by
  rw [run_one cfg env]
  refine ⟨rfl, rfl, ?_, rfl, rfl, by decide, ?_⟩
  · simp [accessAttempted, run, mainInit]
  · intro n hn
    match n with
    | 0 => exact absurd hn (by simp [accessAttempted, run, mainInit])
    | m + 1 =>
        rcases run_pos_closed cfg env m with h | h | h | h <;> rw [h] <;>
          simp [afterSizeLine, hardenedHalt, afterAddrLine, unhardenedHalt]

/-- Witness for C5 at a concrete configuration, environment and step. -/
theorem c5_size_line_precedes_access_witness :
    accessAttempted (run Config.hardened sampleEnv 2) ∧
    sizeLine ∈ (run Config.hardened sampleEnv 2).stdout := by
  refine ⟨by decide, ?_⟩
  exact (c5_size_line_precedes_access Config.hardened sampleEnv).2.2.2.2.2.2 2
    (by decide)

/-- C6: of the five operations `main` performs in program order
(construction, size query, size print, index-0 access, address print)
exactly one can fail — the index access, list position 3 — and the failure
is not reported through any application-level channel: the hardened run
goes directly to the aborted state with the low-level assertion diagnostic
and nothing further on standard output, and the unhardened run never
carries any diagnostic. -/
theorem c6_single_uncaught_error (env : Env) (n : Nat) :
    (programOps.filter Option.isNone).length = 1 ∧
    programOps.get? 3 = some ((buf.opIndex? 0).map fun _ => ()) ∧
    buf.opIndex? 0 = none ∧
    (run Config.hardened env 2).pc = PC.aborted ∧
    (run Config.hardened env 2).diag = some assertDiag ∧
    (run Config.hardened env 2).stdout = [sizeLine] ∧
    (run Config.unhardened env n).diag = none := by
  rw [run_hardened_stable env 0]
  refine ⟨by decide, rfl, rfl, rfl, rfl, rfl, ?_⟩
  rcases run_unhardened_closed env n with h | h | h | h <;>
    simp [h, mainInit, afterSizeLine, afterAddrLine, unhardenedHalt]

/-- C7: the buffer is never mutated: at every step of every run, in both
configurations, the vector is still the default-constructed `buf` and its
length is 0. -/
theorem c7_buffer_never_mutated (cfg : Config) (env : Env) (n : Nat) :
    (run cfg env n).vec = buf ∧ (run cfg env n).vec.size = 0 := by
  refine ⟨run_vec cfg env n, ?_⟩
  rw [run_vec cfg env n]
  rfl

/-- C8: hardened runs are deterministic up to the failure point: any two
runs agree state-by-state (in particular output prefix by output prefix)
regardless of their environments, and every one of them is aborted from
step 2 on with the same diagnostic, the same violated precondition
(index 0 of the length-0 buffer), and the same single line of output. -/
theorem c8_hardened_runs_identical (env₁ env₂ : Env) (n : Nat) :
    run Config.hardened env₁ n = run Config.hardened env₂ n ∧
    (run Config.hardened env₁ n).stdout = (run Config.hardened env₂ n).stdout ∧
    (run Config.hardened env₁ (n + 2)).pc = PC.aborted ∧
    (run Config.hardened env₁ (n + 2)).diag = some assertDiag ∧
    ¬ buf.validIndex 0 ∧
    (run Config.hardened env₁ (n + 2)).stdout = [sizeLine] := by
  rw [run_env_irrel Config.hardened env₁ env₂ n, run_hardened_stable env₁ n]
  exact ⟨rfl, rfl, rfl, rfl, by decide, rfl⟩

/-- C9: the program consumes no inputs: for any two environments (argument
vectors, environment variables, file systems, prior-run state) and either
configuration, the initial state and every subsequent state coincide. -/
theorem c9_no_inputs_consumed (cfg : Config) (env₁ env₂ : Env) (n : Nat) :
    mainInit env₁ = mainInit env₂ ∧ run cfg env₁ n = run cfg env₂ n :=
  ⟨rfl, run_env_irrel cfg env₁ env₂ n⟩

/-- C10: the invalid access only computes an address: `&buf[0]` is the data
pointer plus 0, the data pointer of the default-constructed vector is the
null pointer, the address does not depend on the buffer's contents (no
element is read), the printed address line in the unhardened build is the
fixed null-pointer rendering, and the contents stay untouched at every
step. -/
theorem c10_address_is_null_data_pointer (env : Env) (cfg : Config) (n : Nat) :
    buf.opIndexAddr 0 = buf.start ∧
    buf.start = 0 ∧
    formatPtr (buf.opIndexAddr 0) = "(nil)" ∧
    (∀ (v : Vec) (i : Nat) (d : List Nat),
      Vec.opIndexAddr { v with data := d } i = v.opIndexAddr i) ∧
    (run Config.unhardened env (n + 3)).stdout = [sizeLine, formatPtr buf.start] ∧
    (run cfg env n).vec.data = buf.data := by
  refine ⟨rfl, rfl, by decide, fun v i d => rfl, ?_, ?_⟩
  · rw [run_unhardened_stable env n]
    rfl
  · rw [run_vec cfg env n]

end CrashDemo
